import Mathlib

/-!
Shallow embedding of the URL-analysis pipeline of the repository
`Amit2yzx/retrieve-download-links` (files `app/agents.py`, `streamlit_app.py`;
the streamlit file duplicates the pipeline logic of `agents.py` verbatim).

Python strings are modelled as Lean `String`; Python `None`-able values as
`Option`; exceptions raised inside a `try` block are modelled as explicit
outcome values (`FetchOutcome`, `BrowserOutcome`).  `str.lower()` is modelled
with the ASCII `Char.toLower` (the pipeline's keyword tables are already
lower case).
-/

namespace DownloadLinks

/-- Contiguous-sublist test on character lists. -/
def listInfix (needle : List Char) : List Char → Bool
  | [] => needle.isEmpty
  | c :: t => needle.isPrefixOf (c :: t) || listInfix needle t

/-- Python `needle in hay` on strings: contiguous substring test. -/
def pyIn (needle hay : String) : Bool :=
  listInfix needle.toList hay.toList

/-- Python `s.lower()` (ASCII case folding). -/
def pyLower (s : String) : String :=
  String.mk (s.toList.map Char.toLower)

/-- Python `s.startswith(p)`. -/
def pyStartsWith (s p : String) : Bool :=
  p.toList.isPrefixOf s.toList

/-- Python `s.endswith(p)`. -/
def pyEndsWith (s p : String) : Bool :=
  p.toList.isSuffixOf s.toList

/-- Python `s.split(sep)` for a one-character separator: splits on every
occurrence, keeping empty pieces (`"".split('/') == ['']`). -/
def splitChar (sep : Char) : List Char → List (List Char)
  | [] => [[]]
  | c :: t =>
    let r := splitChar sep t
    if c = sep then [] :: r
    else
      match r with
      | h :: r' => (c :: h) :: r'
      | [] => [[c]]

/-- Python `'/'.join(parts)`. -/
def joinSlash : List (List Char) → List Char
  | [] => []
  | [x] => x
  | x :: y :: t => x ++ '/' :: joinSlash (y :: t)

/-- Python `url.split('/')[-1]` (the list returned by `split` is never
empty). -/
def last_segment (url : String) : String :=
  String.mk ((splitChar '/' url.toList).getLastD [])

/-- Characterisation helper for the relative-path branch of the
normalizer: everything up to and including the LAST `/` of a character
list (used to state what `'/'.join(path.split('/')[:-1]) + '/'`
computes when the list contains a `/`). -/
def upToLastSlash : List Char → List Char
  | [] => []
  | c :: t =>
    if '/' ∈ t then c :: upToLastSlash t
    else if c = '/' then ['/'] else []

/-- The components of `urllib.parse.urlparse` the pipeline reads. -/
structure UrlParts where
  scheme : String
  netloc : String
  path : String
deriving DecidableEq, Repr

/-- Characters allowed in a URL scheme by `urllib.parse`
(`scheme_chars = ascii letters + digits + '+-.'`). -/
def scheme_char (c : Char) : Bool :=
  c.isAlpha || c.isDigit || c == '+' || c == '-' || c == '.'

/-- `urllib.parse._splitparams` applied to a path: if the path has a `/`,
split at the first `;` at or after the last `/`; otherwise at the first
`;`.  Only called when the path contains `;`. -/
def splitparams (p : List Char) : List Char :=
  if ';' ∈ p then
    if '/' ∈ p then
      let k := p.length - 1 - p.reverse.findIdx (· = '/')
      match (p.drop k).findIdx? (· = ';') with
      | some j => p.take (k + j)
      | none => p
    else p.takeWhile (· ≠ ';')
  else p

/-- `urllib.parse.urlparse`, restricted to the `scheme`/`netloc`/`path`
components the pipeline reads: remove the unsafe bytes tab/CR/LF, split a
scheme (first `:` at a positive index, first character an ASCII letter, all
scheme characters), split the netloc after `//` up to the first of `/?#`,
drop fragment and query, split params.  (The `ValueError` raised on
mismatched `[`/`]` in the netloc is modelled separately by `urlparseE`.) -/
def urlparse (url : String) : UrlParts :=
  let cs := url.toList.filter (fun c => !(c == '\t' || c == '\r' || c == '\n'))
  let schemeRest : String × List Char :=
    match cs.findIdx? (· == ':') with
    | some i =>
      match cs with
      | [] => ("", cs)
      | c0 :: _ =>
        if 0 < i ∧ c0.isAlpha ∧ (cs.take i).all scheme_char then
          (String.mk ((cs.take i).map Char.toLower), cs.drop (i + 1))
        else ("", cs)
    | none => ("", cs)
  let rest := schemeRest.2
  let netlocRest : List Char × List Char :=
    match rest with
    | '/' :: '/' :: t =>
      (t.takeWhile (fun c => !(c == '/' || c == '?' || c == '#')),
       t.dropWhile (fun c => !(c == '/' || c == '?' || c == '#')))
    | _ => ([], rest)
  let path1 := (netlocRest.2.takeWhile (· ≠ '#')).takeWhile (· ≠ '?')
  { scheme := schemeRest.1
    netloc := String.mk netlocRest.1
    path := String.mk (splitparams path1) }

/-- `urllib.parse.urlparse` including the `ValueError("Invalid IPv6 URL")`
raised when the netloc has a `[` without `]` or vice versa. -/
def urlparseE (url : String) : Except String UrlParts :=
  let pu := urlparse url
  let nl := pu.netloc.toList
  if ('[' ∈ nl ∧ ']' ∉ nl) ∨ (']' ∈ nl ∧ '[' ∉ nl) then
    Except.error "Invalid IPv6 URL"
  else Except.ok pu

/-- The keyword table of the pipeline (`download_keywords`). -/
def download_keywords : List String :=
  ["download", "descargar", "télécharger", "herunterladen", "скачать"]

/-- The extension table of the pipeline (`file_extensions`). -/
def file_extensions : List String :=
  [".zip", ".pdf", ".exe", ".dmg", ".tar.gz", ".mp4", ".mp3",
   ".doc", ".docx", ".xls", ".xlsx"]

/-- An `<a href=...>` element as seen by the static pass
(`soup.find_all('a', href=True)`): raw href, visible text, and whether the
tag carries a `download` attribute. -/
structure Anchor where
  href : String
  text : String
  downloadAttr : Bool
deriving DecidableEq, Repr

/-- The per-anchor acceptance test of the static pass, from the loop body of
`extract_download_links` in `agents.py` (lines 111-127): accept on a
`download` attribute, else on a keyword occurring in the lower-cased text or
lower-cased href, else on the lower-cased href ending with a configured
extension. -/
def accepts_static_anchor (a : Anchor) : Bool :=
  a.downloadAttr ||
  (download_keywords.any fun k => pyIn k (pyLower a.text) || pyIn k (pyLower a.href)) ||
  (file_extensions.any fun e => pyEndsWith (pyLower a.href) e)

/-- The per-anchor acceptance test of the browser pass, from
`analyze_with_browser` in `agents.py` (lines 178-179): a keyword occurring
in the lower-cased text, or the lower-cased href ending with a configured
extension.  (Unlike the static pass it does not look for keywords in the
href and has no `download`-attribute check.) -/
def accepts_browser_anchor (href text : String) : Bool :=
  (download_keywords.any fun k => pyIn k (pyLower text)) ||
  (file_extensions.any fun e => pyEndsWith (pyLower href) e)

/-- The relative-to-absolute conversion applied to each collected link in
`extract_download_links` (`agents.py` lines 134-144); `base_domain` is
inlined as `pb.scheme ++ "://" ++ pb.netloc`. -/
def normalize_link (pb : UrlParts) (link : String) : String :=
  if pyStartsWith link "http" then link
  else if pyStartsWith link "//" then pb.scheme ++ ":" ++ link
  else if pyStartsWith link "/" then pb.scheme ++ "://" ++ pb.netloc ++ link
  else pb.scheme ++ "://" ++ pb.netloc ++
    String.mk (joinSlash ((splitChar '/' pb.path.toList).dropLast) ++ ['/']) ++ link

/-- `extract_download_links(html_content, base_url)` of `agents.py`
(lines 102-146), with the parsed anchor list of `html_content` passed
directly: collect the hrefs of accepted anchors in document order (no
deduplication), then convert each to absolute form against
`urlparse(base_url)`. -/
def extract_download_links (anchors : List Anchor) (base_url : String) : List String :=
  ((anchors.filter accepts_static_anchor).map Anchor.href).map
    (normalize_link (urlparse base_url))

/-- The `filename="..."` capture of
`re.search(r'filename="?([^"]+)"?', cd)` at one candidate position:
optionally skip one `"`, then take one or more characters other than `"`. -/
def cdMatchAt (rest : List Char) : Option String :=
  let rest2 := match rest with | '"' :: t => t | _ => rest
  let g := rest2.takeWhile (· ≠ '"')
  if g.isEmpty then none else some (String.mk g)

/-- Leftmost-match scan of `re.search(r'filename="?([^"]+)"?', cd)`:
try every position where the literal `filename=` occurs, left to right. -/
def cdScan : List Char → Option String
  | [] => none
  | c :: t =>
    if ("filename=".toList).isPrefixOf (c :: t) then
      match cdMatchAt ((c :: t).drop 9) with
      | some g => some g
      | none => cdScan t
    else cdScan t

/-- The filename extracted from a `Content-Disposition` header by
`re.search(r'filename="?([^"]+)"?', content_disposition)`. -/
def cdFilename (cd : String) : Option String :=
  cdScan cd.toList

/-- The direct-download classification block of `analyze_url`
(`agents.py` lines 56-72): the `attachment` header check sets the flag and
extracts a filename from the header; then the extension loop runs and, on a
match, sets the flag and overwrites the filename with the URL's last path
segment. -/
def direct_download_check (url cd : String) : Bool × Option String :=
  let isddAttach := pyIn "attachment" cd
  let fnAttach := if pyIn "attachment" cd then cdFilename cd else none
  if file_extensions.any (fun e => pyEndsWith (pyLower url) e) then
    (true, some (last_segment url))
  else (isddAttach, fnAttach)

/-- The `analysis` dictionary built by the pipeline.  Keys the browser pass
does not write (`content_type`, `status_code`, `size`) are `Option`s, since
`dict.get` on them yields `None`. -/
structure Analysis where
  url : String
  title : Option String
  content_type : Option String
  is_html : Bool
  is_direct_download : Bool
  filename : Option String
  status_code : Option Nat
  size : Option Nat
deriving DecidableEq, Repr

/-- The `AgentState` dictionary of `agents.py`; absent keys are `none` /
`false`, matching `state.get(..., default)` at the read sites. -/
structure AgentState where
  url : String
  analysis : Option Analysis := none
  download_links : Option (List String) := none
  error : Option String := none
  needs_browser : Bool := false
deriving DecidableEq, Repr

/-- What the single `requests.get` plus HTML parse of the static pass can
observe on success (after `raise_for_status` passed): the two headers the
code reads, the parsed `<title>`, the parsed anchor list, status and size. -/
structure StaticResponse where
  contentType : String
  contentDisposition : String
  title : Option String
  anchors : List Anchor
  statusCode : Nat
  size : Nat
deriving DecidableEq, Repr

/-- Outcome of the static fetch-and-parse attempt: `ok` when no exception
escaped, `err msg` for any exception raised inside the `try` block
(connection error, timeout, `raise_for_status`, parse error), with `msg`
the `str(e)` text. -/
inductive FetchOutcome where
  | ok (r : StaticResponse)
  | err (msg : String)
deriving DecidableEq, Repr

/-- Outcome of the headless-browser attempt: on success the rendered title
and the `(resolved href, textContent)` pairs of all `a[href]` elements in
DOM order; `err msg` for any exception (launch, navigation, timeout). -/
inductive BrowserOutcome where
  | ok (title : String) (anchors : List (String × String))
  | err (msg : String)
deriving DecidableEq, Repr

/-- `analyze_url` of `agents.py` (lines 27-99): validate the URL, fetch,
classify, extract links, and set the escalation signal.  A `ValueError`
from `urlparse` or any fetch/parse exception lands in the `except` branch,
which records the error and requests the browser fallback. -/
def analyze_url (url : String) (fetch : FetchOutcome) : AgentState :=
  match urlparseE url with
  | Except.error msg =>
    { url := url, error := some ("Error analyzing URL: " ++ msg), needs_browser := true }
  | Except.ok pu =>
    if pu.scheme = "" ∨ pu.netloc = "" then
      { url := url, error := some "Invalid URL format" }
    else
      match fetch with
      | FetchOutcome.err msg =>
        { url := url, error := some ("Error analyzing URL: " ++ msg), needs_browser := true }
      | FetchOutcome.ok r =>
        let content_type := r.contentType
        let is_html := pyIn "text/html" content_type
        let title := if is_html then r.title else none
        let dd := direct_download_check url r.contentDisposition
        let analysis : Analysis :=
          { url := url, title := title, content_type := some content_type,
            is_html := is_html, is_direct_download := dd.1, filename := dd.2,
            status_code := some r.statusCode, size := some r.size }
        if is_html then
          let links := extract_download_links r.anchors url
          { url := url, analysis := some analysis, download_links := some links,
            needs_browser := links.isEmpty }
        else
          { url := url, analysis := some analysis }

/-- The link collection loop of `analyze_with_browser` (`agents.py`
lines 169-180): keep, in DOM order, the hrefs of pairs accepted by the
browser-pass predicate. -/
def browser_links (anchors : List (String × String)) : List String :=
  (anchors.filter fun p => accepts_browser_anchor p.1 p.2).map Prod.fst

/-- `analyze_with_browser` of `agents.py` (lines 149-203).  On success: if
no analysis exists yet, install the browser-made one (`is_html` true,
`is_direct_download` false, no content type); then store the links only
when some were found.  On failure: record the browser error only when no
error is present yet (`if not state.get("error")`; pipeline error strings
are never empty, so Python falsiness coincides with absence). -/
def analyze_with_browser (s : AgentState) (b : BrowserOutcome) : AgentState :=
  match b with
  | BrowserOutcome.ok title anchors =>
    let links := browser_links anchors
    let browserAnalysis : Analysis :=
      { url := s.url, title := some title, content_type := none,
        is_html := true, is_direct_download := false, filename := none,
        status_code := none, size := none }
    let s1 :=
      if s.analysis = none then { s with analysis := some browserAnalysis } else s
    if links ≠ [] then { s1 with download_links := some links } else s1
  | BrowserOutcome.err msg =>
    if s.error = none then
      { s with error := some ("Error analyzing URL with browser: " ++ msg) }
    else s

/-- The externally visible result dictionary built by
`prepare_final_result`. -/
structure FinalResult where
  success : Bool
  url : String
  error : Option String
  is_direct_download : Bool
  download_links : List String
  recommended_link : Option String
  title : Option String
  content_type : Option String
deriving DecidableEq, Repr

/-- `prepare_final_result` of `agents.py` (lines 242-267): `success` is
`error is None`; the recommendation is the original URL for a direct
download, else the first download link when any exist. -/
def prepare_final_result (s : AgentState) : FinalResult :=
  let download_links := s.download_links.getD []
  let idd := match s.analysis with | some a => a.is_direct_download | none => false
  { success := s.error.isNone
    url := s.url
    error := s.error
    is_direct_download := idd
    download_links := download_links
    recommended_link := if idd then some s.url else download_links.head?
    title := s.analysis.bind Analysis.title
    content_type := s.analysis.bind Analysis.content_type }

/-- The compiled LangGraph workflow of `create_url_analyzer_agent`
(`agents.py` lines 206-237): run `analyze_url`; `needs_browser_router`
sends the state through `analyze_with_browser` exactly when
`needs_browser` is set; finish with `prepare_final_result`. -/
def run_pipeline (url : String) (fetch : FetchOutcome) (browser : BrowserOutcome) :
    FinalResult :=
  let s1 := analyze_url url fetch
  let s2 := if s1.needs_browser then analyze_with_browser s1 browser else s1
  prepare_final_result s2

/-! ### Helper lemmas -/

lemma analyze_url_url (url : String) (f : FetchOutcome) :
    (analyze_url url f).url = url := by
  unfold analyze_url
  cases urlparseE url with
  | error msg => rfl
  | ok pu =>
    by_cases h : pu.scheme = "" ∨ pu.netloc = ""
    · simp [h]
    · cases f with
      | err msg => simp [h]
      | ok r =>
        simp only [h, if_false]
        by_cases hh : pyIn "text/html" r.contentType = true <;> simp [h, hh]

lemma analyze_with_browser_url (s : AgentState) (b : BrowserOutcome) :
    (analyze_with_browser s b).url = s.url := by
  cases b with
  | ok title anchors =>
    unfold analyze_with_browser
    by_cases ha : s.analysis = none <;>
      by_cases hl : browser_links anchors ≠ [] <;> simp [ha, hl]
  | err msg =>
    unfold analyze_with_browser
    by_cases he : s.error = none <;> simp [he]

lemma prepare_recommended_of_idd (s : AgentState)
    (h : (prepare_final_result s).is_direct_download = true) :
    (prepare_final_result s).recommended_link = some s.url := by
  simp only [prepare_final_result] at h ⊢
  simp [h]

/-! ### Claim theorems -/

/-- C5: for every finalized `ResolutionResult` in which `isDirectDownload`
is true (for any fetch/browser outcome, so in particular when the fetched
body is HTML), `recommendedLink` equals the original request URL. -/
theorem c5_direct_download_recommends_input_url (url : String) (f : FetchOutcome)
    (b : BrowserOutcome) (h : (run_pipeline url f b).is_direct_download = true) :
    (run_pipeline url f b).recommended_link = some url := by
  have hu : ((if (analyze_url url f).needs_browser then
      analyze_with_browser (analyze_url url f) b else analyze_url url f)).url = url := by
    split
    · rw [analyze_with_browser_url, analyze_url_url]
    · rw [analyze_url_url]
  unfold run_pipeline at h ⊢
  rw [prepare_recommended_of_idd _ h, hu]

/-- C5 witness: a URL ending in `.zip` fetched as a non-HTML response is a
direct download and the recommendation is the request URL itself. -/
theorem c5_witness :
    (run_pipeline "https://cdn.example.com/file.zip"
      (FetchOutcome.ok ⟨"application/zip", "", none, [], 200, 5⟩)
      (BrowserOutcome.err "x")).recommended_link = some "https://cdn.example.com/file.zip" :=
  c5_direct_download_recommends_input_url _ _ _ (by decide)

/-- C6: for every finalized `ResolutionResult` with `isDirectDownload`
false, `recommendedLink` is the first element of `downloadLinks` when that
sequence is non-empty, and absent when it is empty. -/
theorem c6_recommended_is_first_link (s : AgentState)
    (h : (prepare_final_result s).is_direct_download = false) :
    (∀ l ls, (prepare_final_result s).download_links = l :: ls →
        (prepare_final_result s).recommended_link = some l) ∧
    ((prepare_final_result s).download_links = [] →
        (prepare_final_result s).recommended_link = none) := by
  simp only [prepare_final_result] at h ⊢
  constructor
  · intro l ls hdl
    simp [h, hdl]
  · intro hdl
    simp [h, hdl]

/-- C6 witness: with no analysis and stored links `["a", "b"]`, the
recommendation is `"a"`. -/
theorem c6_witness :
    (prepare_final_result ⟨"u", none, some ["a", "b"], none, false⟩).recommended_link =
      some "a" :=
  (c6_recommended_is_first_link ⟨"u", none, some ["a", "b"], none, false⟩ (by decide)).1
    "a" ["b"] (by decide)

/-- C7: an input whose parse yields no scheme or no host produces
`success = false` with error exactly `"Invalid URL format"`; the result is
independent of the fetch and browser outcomes (no network call or browser
launch can influence it) and the browser escalation flag is never set. -/
theorem c7_invalid_url_rejected (url : String) (pu : UrlParts)
    (f f' : FetchOutcome) (b b' : BrowserOutcome)
    (hp : urlparseE url = Except.ok pu) (h : pu.scheme = "" ∨ pu.netloc = "") :
    run_pipeline url f b = run_pipeline url f' b' ∧
    (run_pipeline url f b).success = false ∧
    (run_pipeline url f b).error = some "Invalid URL format" ∧
    (analyze_url url f).needs_browser = false := by
  have key : ∀ g : FetchOutcome,
      analyze_url url g = { url := url, error := some "Invalid URL format" } := by
    intro g
    unfold analyze_url
    rw [hp]
    simp [h]
  have run_eq : ∀ (g : FetchOutcome) (c : BrowserOutcome),
      run_pipeline url g c =
        prepare_final_result { url := url, error := some "Invalid URL format" } := by
    intro g c
    unfold run_pipeline
    rw [key g]
    rfl
  refine ⟨(run_eq f b).trans (run_eq f' b').symm, ?_, ?_, ?_⟩
  · rw [run_eq f b]; rfl
  · rw [run_eq f b]; rfl
  · rw [key f]

/-- C7 witness: `"notaurl"` parses with empty scheme and host and is
rejected identically for two different fetch/browser outcomes. -/
theorem c7_witness :
    run_pipeline "notaurl" (FetchOutcome.err "e1") (BrowserOutcome.err "b1") =
      run_pipeline "notaurl" (FetchOutcome.ok ⟨"text/html", "", none, [], 200, 0⟩)
        (BrowserOutcome.ok "t" []) ∧
    (run_pipeline "notaurl" (FetchOutcome.err "e1") (BrowserOutcome.err "b1")).success = false ∧
    (run_pipeline "notaurl" (FetchOutcome.err "e1") (BrowserOutcome.err "b1")).error =
      some "Invalid URL format" ∧
    (analyze_url "notaurl" (FetchOutcome.err "e1")).needs_browser = false :=
  c7_invalid_url_rejected "notaurl" ⟨"", "", "notaurl"⟩ (FetchOutcome.err "e1")
    (FetchOutcome.ok ⟨"text/html", "", none, [], 200, 0⟩) (BrowserOutcome.err "b1")
    (BrowserOutcome.ok "t" []) rfl (Or.inl rfl)

/-- C1 counterexample: the static pass succeeds on an HTML page with no
links (escalation fires), the render fails — and contrary to the claim the
render error IS surfaced: `success` is false and the error is the render
failure, although the static pass had succeeded. -/
theorem c1_counterexample :
    (run_pipeline "https://example.com/page"
      (FetchOutcome.ok ⟨"text/html", "", some "T", [], 200, 0⟩)
      (BrowserOutcome.err "timeout")).success = false ∧
    (run_pipeline "https://example.com/page"
      (FetchOutcome.ok ⟨"text/html", "", some "T", [], 200, 0⟩)
      (BrowserOutcome.err "timeout")).error =
        some "Error analyzing URL with browser: timeout" := by
  constructor <;> rfl

/-- C1 (amended): after escalation, a render failure always yields
`success = false`; the caller-visible error is the render failure exactly
when the static pass had NOT failed, while if the static pass had failed
its (static) error is kept and the render failure is never surfaced. -/
theorem c1_amended_render_error_handling (url msg : String) (f : FetchOutcome)
    (h : (analyze_url url f).needs_browser = true) :
    (run_pipeline url f (BrowserOutcome.err msg)).success = false ∧
    (run_pipeline url f (BrowserOutcome.err msg)).error =
      some ((analyze_url url f).error.getD ("Error analyzing URL with browser: " ++ msg)) := by
  simp only [run_pipeline]
  rw [if_pos h]
  cases herr : (analyze_url url f).error with
  | none => simp [analyze_with_browser, herr, prepare_final_result]
  | some e => simp [analyze_with_browser, herr, prepare_final_result]

/-- C1 witness: static fetch fails, render fails; the final error is the
static failure, not the render failure. -/
theorem c1_amended_witness :
    (run_pipeline "https://example.com/page" (FetchOutcome.err "conn")
      (BrowserOutcome.err "crash")).success = false ∧
    (run_pipeline "https://example.com/page" (FetchOutcome.err "conn")
      (BrowserOutcome.err "crash")).error =
      some ((analyze_url "https://example.com/page" (FetchOutcome.err "conn")).error.getD
        ("Error analyzing URL with browser: " ++ "crash")) :=
  c1_amended_render_error_handling "https://example.com/page" "crash"
    (FetchOutcome.err "conn") rfl

/-- C2 counterexample: an HTML response carrying a `Content-Disposition:
attachment` header (a direct download per the classifier) with zero
candidate links still sets the `needsBrowser` signal, contrary to the
claim that the signal never fires for direct downloads. -/
theorem c2_counterexample :
    (analyze_url "https://example.com/page"
      (FetchOutcome.ok ⟨"text/html", "attachment; filename=\"f.pdf\"", none, [], 200, 0⟩)).needs_browser
        = true ∧
    (analyze_url "https://example.com/page"
      (FetchOutcome.ok ⟨"text/html", "attachment; filename=\"f.pdf\"", none, [], 200, 0⟩)).analysis.map
        Analysis.is_direct_download = some true := by
  constructor <;> rfl

/-- C2 (amended): for every successfully fetched URL, the static pass sets
`needsBrowser` exactly when the response is HTML and zero candidate links
were extracted — independently of the direct-download classification (it
can fire together with it), and never for a non-HTML response. -/
theorem c2_amended_needs_browser_iff (url : String) (r : StaticResponse) (pu : UrlParts)
    (hp : urlparseE url = Except.ok pu) (hv : ¬(pu.scheme = "" ∨ pu.netloc = "")) :
    (analyze_url url (FetchOutcome.ok r)).needs_browser =
      (pyIn "text/html" r.contentType && (extract_download_links r.anchors url).isEmpty) := by
  unfold analyze_url
  rw [hp]
  cases hpy : pyIn "text/html" r.contentType with
  | true => simp [hv, hpy]
  | false => simp [hv, hpy]

/-- C2 witness: an HTML page with no anchors sets the signal, matching the
HTML-and-zero-links condition. -/
theorem c2_amended_witness :
    (analyze_url "https://example.com/page"
      (FetchOutcome.ok ⟨"text/html", "", none, [], 200, 0⟩)).needs_browser =
      (pyIn "text/html" "text/html" &&
        (extract_download_links [] "https://example.com/page").isEmpty) :=
  c2_amended_needs_browser_iff "https://example.com/page"
    ⟨"text/html", "", none, [], 200, 0⟩ ⟨"https", "example.com", "/page"⟩
    rfl (by decide)

/-- C10: when the static pass fails and the browser pass then succeeds with
a non-empty link list, the static error is never cleared: the finalized
result has `success = false` and the static error string, yet carries the
browser links and recommends their first element. -/
theorem c10_static_error_survives_browser_success (url msg title : String)
    (anchors : List (String × String)) (pu : UrlParts) (l : String) (ls : List String)
    (hp : urlparseE url = Except.ok pu) (hv : ¬(pu.scheme = "" ∨ pu.netloc = ""))
    (hl : browser_links anchors = l :: ls) :
    (run_pipeline url (FetchOutcome.err msg) (BrowserOutcome.ok title anchors)).success
      = false ∧
    (run_pipeline url (FetchOutcome.err msg) (BrowserOutcome.ok title anchors)).error
      = some ("Error analyzing URL: " ++ msg) ∧
    (run_pipeline url (FetchOutcome.err msg) (BrowserOutcome.ok title anchors)).download_links
      = l :: ls ∧
    (run_pipeline url (FetchOutcome.err msg) (BrowserOutcome.ok title anchors)).recommended_link
      = some l := by
  have s1_eq : analyze_url url (FetchOutcome.err msg) =
      { url := url, error := some ("Error analyzing URL: " ++ msg), needs_browser := true } := by
    unfold analyze_url
    rw [hp]
    simp [hv]
  unfold run_pipeline
  rw [s1_eq]
  simp [analyze_with_browser, hl, prepare_final_result]

/-- C10 witness: a concrete connection failure followed by a successful
render that finds one `.zip` link. -/
theorem c10_witness :
    (run_pipeline "https://example.com/page" (FetchOutcome.err "conn timeout")
      (BrowserOutcome.ok "T" [("https://x.com/f.zip", "get")])).success = false ∧
    (run_pipeline "https://example.com/page" (FetchOutcome.err "conn timeout")
      (BrowserOutcome.ok "T" [("https://x.com/f.zip", "get")])).error
        = some ("Error analyzing URL: " ++ "conn timeout") ∧
    (run_pipeline "https://example.com/page" (FetchOutcome.err "conn timeout")
      (BrowserOutcome.ok "T" [("https://x.com/f.zip", "get")])).download_links
        = ["https://x.com/f.zip"] ∧
    (run_pipeline "https://example.com/page" (FetchOutcome.err "conn timeout")
      (BrowserOutcome.ok "T" [("https://x.com/f.zip", "get")])).recommended_link
        = some "https://x.com/f.zip" :=
  c10_static_error_survives_browser_success "https://example.com/page" "conn timeout" "T"
    [("https://x.com/f.zip", "get")] ⟨"https", "example.com", "/page"⟩
    "https://x.com/f.zip" [] rfl (by decide) rfl

/-- C3 counterexample: an anchor whose href contains the keyword
`download` but whose text does not: the static pass accepts it, the
rendered pass rejects it, so the two per-anchor predicates differ on a
plain (href, text) pair without a `download` attribute. -/
theorem c3_counterexample :
    accepts_browser_anchor "https://example.com/download" "click here" = false ∧
    accepts_static_anchor ⟨"https://example.com/download", "click here", false⟩ = true := by
  constructor <;> rfl

/-- C3 (amended): the rendered pass checks keywords only against the
lower-cased visible text (never against the href) and extensions against
the href; hence every (href, text) pair it accepts is also accepted by the
static pass's rule whatever the `download` attribute, but not conversely. -/
theorem c3_amended_browser_accepts_subset (href text : String) (attr : Bool)
    (h : accepts_browser_anchor href text = true) :
    accepts_static_anchor ⟨href, text, attr⟩ = true := by
  simp only [accepts_browser_anchor, accepts_static_anchor, Bool.or_eq_true,
    List.any_eq_true] at h ⊢
  rcases h with ⟨k, hmem, hks⟩ | ⟨e, hmem, hes⟩
  · exact Or.inl (Or.inr ⟨k, hmem, Or.inl hks⟩)
  · exact Or.inr ⟨e, hmem, hes⟩

/-- C3 witness: an anchor ending in `.zip` is accepted by both passes. -/
theorem c3_amended_witness :
    accepts_static_anchor ⟨"x.zip", "", false⟩ = true :=
  c3_amended_browser_accepts_subset "x.zip" "" false (by decide)

/-- C8 counterexample: with `Content-Disposition: attachment;
filename="report.pdf"` and a URL ending in `.zip`, the returned filename is
the URL's last path segment, not the header filename the claim requires. -/
theorem c8_counterexample :
    (direct_download_check "https://example.com/other.zip"
      "attachment; filename=\"report.pdf\"").2 ≠ some "report.pdf" ∧
    direct_download_check "https://example.com/other.zip"
      "attachment; filename=\"report.pdf\"" = (true, some "other.zip") := by
  constructor
  · decide
  · rfl

/-- C8 (amended): when the Content-Disposition header contains
`attachment`, the extension check runs second and wins for the filename:
if the lower-cased URL ends with a configured extension the filename is the
URL's last path segment (overwriting any header filename), and the
header-extracted filename is returned only when no extension matches; the
flag is true in both cases. -/
theorem c8_amended_extension_overwrites_filename (url cd : String)
    (ha : pyIn "attachment" cd = true) :
    (file_extensions.any (fun e => pyEndsWith (pyLower url) e) = true →
      direct_download_check url cd = (true, some (last_segment url))) ∧
    (file_extensions.any (fun e => pyEndsWith (pyLower url) e) = false →
      direct_download_check url cd = (true, cdFilename cd)) := by
  constructor <;> intro hx <;> simp [direct_download_check, hx, ha]

/-- C8 witness: both the overwriting case (`b.zip` with a header filename
`c.pdf`) discharged through the amended theorem. -/
theorem c8_amended_witness :
    direct_download_check "https://a.com/b.zip" "attachment; filename=\"c.pdf\"" =
      (true, some (last_segment "https://a.com/b.zip")) :=
  (c8_amended_extension_overwrites_filename "https://a.com/b.zip"
    "attachment; filename=\"c.pdf\"" (by decide)).1 (by decide)

/-! ### The Link Normalizer: split/join lemmas -/

lemma splitChar_exists_cons (sep : Char) (l : List Char) :
    ∃ h r, splitChar sep l = h :: r := by
  induction l with
  | nil => exact ⟨[], [], rfl⟩
  | cons c t ih =>
    obtain ⟨h, r, e⟩ := ih
    by_cases hc : c = sep
    · exact ⟨[], splitChar sep t, by simp [splitChar, hc]⟩
    · exact ⟨c :: h, r, by simp [splitChar, hc, e]⟩

lemma splitChar_of_not_mem {sep : Char} {l : List Char} (h : sep ∉ l) :
    splitChar sep l = [l] := by
  induction l with
  | nil => rfl
  | cons c t ih =>
    have hc : ¬ c = sep := fun e => h (e ▸ List.mem_cons_self c t)
    have ht : sep ∉ t := fun m => h (List.mem_cons_of_mem c m)
    simp [splitChar, hc, ih ht]

lemma splitChar_two_of_mem {sep : Char} {l : List Char} (h : sep ∈ l) :
    ∃ a b r, splitChar sep l = a :: b :: r := by
  induction l with
  | nil => cases h
  | cons c t ih =>
    by_cases hc : c = sep
    · obtain ⟨h0, r0, e⟩ := splitChar_exists_cons sep t
      exact ⟨[], h0, r0, by simp [splitChar, hc, e]⟩
    · have ht : sep ∈ t := by
        rcases List.mem_cons.mp h with h1 | h1
        · exact absurd h1.symm hc
        · exact h1
      obtain ⟨a, b, r, e⟩ := ih ht
      exact ⟨c :: a, b, r, by simp [splitChar, hc, e]⟩

lemma joinSlash_cons_head (c : Char) (h : List Char) (q : List (List Char)) :
    joinSlash ((c :: h) :: q) = c :: joinSlash (h :: q) := by
  cases q <;> rfl

/-- What the relative-path branch of the normalizer computes on the parsed
base path: the path up to and including its last `/` when one occurs, and
just `"/"` otherwise. -/
lemma relative_dir_eq (p : List Char) :
    joinSlash ((splitChar '/' p).dropLast) ++ ['/'] =
      if '/' ∈ p then upToLastSlash p else ['/'] := by
  induction p with
  | nil => simp [splitChar, joinSlash]
  | cons c t ih =>
    by_cases hm : '/' ∈ t
    · obtain ⟨a, b, r, e⟩ := splitChar_two_of_mem hm
      rw [e] at ih
      by_cases hc : c = '/'
      · subst hc
        have hsp : splitChar '/' ('/' :: t) = [] :: a :: b :: r := by
          simp [splitChar, e]
        rw [hsp]
        have hdl : ([] :: a :: b :: r).dropLast = [] :: a :: (b :: r).dropLast := rfl
        rw [hdl]
        have hjs : joinSlash ([] :: a :: (b :: r).dropLast) =
            '/' :: joinSlash (a :: (b :: r).dropLast) := rfl
        rw [hjs]
        have hid : (a :: b :: r).dropLast = a :: (b :: r).dropLast := rfl
        rw [hid] at ih
        simp only [List.cons_append, ih, upToLastSlash]
        simp [hm, List.mem_cons]
      · have hsp : splitChar '/' (c :: t) = (c :: a) :: b :: r := by
          simp [splitChar, hc, e]
        rw [hsp]
        have hdl : ((c :: a) :: b :: r).dropLast = (c :: a) :: (b :: r).dropLast := rfl
        rw [hdl, joinSlash_cons_head]
        have hid : (a :: b :: r).dropLast = a :: (b :: r).dropLast := rfl
        rw [hid] at ih
        simp only [List.cons_append, ih, upToLastSlash]
        simp [hm, hc, List.mem_cons]
    · have hsp0 : splitChar '/' t = [t] := splitChar_of_not_mem hm
      by_cases hc : c = '/'
      · subst hc
        have hsp : splitChar '/' ('/' :: t) = [] :: [t] := by
          simp [splitChar, hsp0]
        rw [hsp]
        simp [joinSlash, upToLastSlash, hm]
      · have hsp : splitChar '/' (c :: t) = [c :: t] := by
          simp [splitChar, hc, hsp0]
        rw [hsp]
        have hmem : ¬ '/' ∈ c :: t := by
          intro hx
          rcases List.mem_cons.mp hx with h1 | h1
          · exact hc h1.symm
          · exact hm h1
        simp [joinSlash, hmem]

/-! ### The Link Normalizer: branch equations -/

lemma normalize_of_http (pb : UrlParts) (y : String)
    (hy : pyStartsWith y "http" = true) : normalize_link pb y = y := by
  unfold normalize_link
  rw [if_pos hy]

lemma normalize_link_protocol_relative (pb : UrlParts) (link : String)
    (h1 : ¬ pyStartsWith link "http" = true) (h2 : pyStartsWith link "//" = true) :
    normalize_link pb link = pb.scheme ++ ":" ++ link := by
  unfold normalize_link
  rw [if_neg h1, if_pos h2]

lemma normalize_link_root_relative (pb : UrlParts) (link : String)
    (h1 : ¬ pyStartsWith link "http" = true) (h2 : ¬ pyStartsWith link "//" = true)
    (h3 : pyStartsWith link "/" = true) :
    normalize_link pb link = pb.scheme ++ "://" ++ pb.netloc ++ link := by
  unfold normalize_link
  rw [if_neg h1, if_neg h2, if_pos h3]

lemma normalize_link_relative (pb : UrlParts) (link : String)
    (h1 : ¬ pyStartsWith link "http" = true) (h2 : ¬ pyStartsWith link "//" = true)
    (h3 : ¬ pyStartsWith link "/" = true) :
    normalize_link pb link = pb.scheme ++ "://" ++ pb.netloc ++
      String.mk (joinSlash ((splitChar '/' pb.path.toList).dropLast) ++ ['/']) ++ link := by
  unfold normalize_link
  rw [if_neg h1, if_neg h2, if_neg h3]

lemma pyStartsWith_http_of_toList (s : String) (l : List Char)
    (h : s.toList = 'h' :: 't' :: 't' :: 'p' :: l) : pyStartsWith s "http" = true := by
  show List.isPrefixOf ['h', 't', 't', 'p'] s.toList = true
  rw [h, List.isPrefixOf_iff_prefix]
  exact ⟨l, rfl⟩

/-! ### C4 and C9 -/

/-- C4 counterexample: the href `"httpfile.zip"` does not start with an
HTTP(S) scheme token, yet the normalizer returns it unchanged instead of
resolving it against the base directory as the claim's rule 4 requires. -/
theorem c4_counterexample :
    normalize_link ⟨"https", "example.com", "/a/page"⟩ "httpfile.zip" = "httpfile.zip" ∧
    normalize_link ⟨"https", "example.com", "/a/page"⟩ "httpfile.zip" ≠
      "https://example.com/a/httpfile.zip" := by
  constructor
  · rfl
  · decide

/-- C4 (amended): the normalizer applies its rules in order, but the first
rule fires on the literal character prefix `http` (case-sensitively), not
on an HTTP(S) scheme token — so hrefs such as `"httpfile.zip"` are
returned unchanged; the remaining rules are as claimed, the relative
branch producing scheme://host plus the base path truncated after its
last `/` (just `/` when the path has none) plus the href. -/
theorem c4_amended_normalizer_rules (link : String) (pb : UrlParts) :
    (pyStartsWith link "http" = true → normalize_link pb link = link) ∧
    (pyStartsWith link "http" = false → pyStartsWith link "//" = true →
      normalize_link pb link = pb.scheme ++ ":" ++ link) ∧
    (pyStartsWith link "http" = false → pyStartsWith link "//" = false →
      pyStartsWith link "/" = true →
      normalize_link pb link = pb.scheme ++ "://" ++ pb.netloc ++ link) ∧
    (pyStartsWith link "http" = false → pyStartsWith link "//" = false →
      pyStartsWith link "/" = false →
      normalize_link pb link = pb.scheme ++ "://" ++ pb.netloc ++
        String.mk (if '/' ∈ pb.path.toList then upToLastSlash pb.path.toList else ['/']) ++
        link) := by
  refine ⟨?_, ?_, ?_, ?_⟩
  · intro h1
    exact normalize_of_http pb link h1
  · intro h1 h2
    exact normalize_link_protocol_relative pb link (by simp [h1]) h2
  · intro h1 h2 h3
    exact normalize_link_root_relative pb link (by simp [h1]) (by simp [h2]) h3
  · intro h1 h2 h3
    rw [normalize_link_relative pb link (by simp [h1]) (by simp [h2]) (by simp [h3])]
    rw [relative_dir_eq]

/-- C4 witness: the spec's own scenario — `files/doc.pdf` against base
`https://example.com/page`... here with base path `/a/page`, resolved into
the base directory. -/
theorem c4_amended_witness :
    normalize_link ⟨"https", "example.com", "/a/page"⟩ "files/doc.pdf" =
      "https://example.com/a/files/doc.pdf" := by
  have h := (c4_amended_normalizer_rules "files/doc.pdf"
    ⟨"https", "example.com", "/a/page"⟩).2.2.2 (by decide) (by decide) (by decide)
  rw [h]
  decide

/-- C9: link normalization is idempotent for every href once the base's
parsed scheme is `http` or `https`: every branch of the normalizer returns
a string starting with the literal `http`, which the first branch then
returns unchanged. -/
theorem c9_normalize_idempotent (x : String) (pb : UrlParts)
    (h : pb.scheme = "http" ∨ pb.scheme = "https") :
    normalize_link pb (normalize_link pb x) = normalize_link pb x := by
  by_cases h1 : pyStartsWith x "http" = true
  · rw [normalize_of_http pb x h1]
    exact normalize_of_http pb x h1
  · by_cases h2 : pyStartsWith x "//" = true
    · rcases h with hs | hs <;>
        rw [normalize_link_protocol_relative pb x h1 h2, hs] <;>
        exact normalize_of_http _ _ (pyStartsWith_http_of_toList _ _ rfl)
    · by_cases h3 : pyStartsWith x "/" = true
      · rcases h with hs | hs <;>
          rw [normalize_link_root_relative pb x h1 h2 h3, hs] <;>
          exact normalize_of_http _ _ (pyStartsWith_http_of_toList _ _ rfl)
      · rcases h with hs | hs <;>
          rw [normalize_link_relative pb x h1 h2 h3, hs] <;>
          exact normalize_of_http _ _ (pyStartsWith_http_of_toList _ _ rfl)

/-- C9 witness: idempotence at a concrete relative href and base. -/
theorem c9_witness :
    normalize_link ⟨"https", "example.com", "/a/b"⟩
        (normalize_link ⟨"https", "example.com", "/a/b"⟩ "file.zip") =
      normalize_link ⟨"https", "example.com", "/a/b"⟩ "file.zip" :=
  c9_normalize_idempotent "file.zip" ⟨"https", "example.com", "/a/b"⟩ (Or.inr rfl)

end DownloadLinks
